import Mathlib

/-!
Verification development for `src/core/new_trainer.py` (function `do_train`
and helper `_get_loss_info`).

The file is a shallow embedding of `do_train`.  The external objects the
function receives (the student `model`, the `teacher`, the `loss_factory`,
the `optimizer`, the data loader) are owned by the deep-learning framework;
the embedding therefore parametrises one loop iteration by the values those
objects return: a `Batch` carries the three per-stage loss lists that
`loss_factory` yields for the student outputs and for the teacher outputs
(each entry an optional tensor along dim 0, modelled as `Option (List ℚ)`),
the batch size `images.size(0)`, and the number of student output scales.
Loss arithmetic is over `ℚ`.  Side effects (meter updates, TensorBoard
scalar writes, log emission, debug-image saving, the global-step counter)
are threaded through an explicit `TrainState`.  A separate, purely
structural trace model (`Op`, `batchTrace`, `doTrainTrace`) records the
sequence of framework calls an iteration performs, for claims about
ordering, mode switching and gradient bookkeeping.
-/

/-- Modelled from the spec: `AverageMeter`, imported by the trainer from
`utils.utils`, which is not under `src/`.  It is the running-average
tracker whose fields `val` and `avg` the logging code reads:
`update(val, n)` stores the latest value in `val`, adds `val * n` to a
running `sum`, adds `n` to `count`, and sets `avg = sum / count`. -/
structure AverageMeter where
  val : ℚ
  sum : ℚ
  count : ℕ
  avg : ℚ
deriving DecidableEq, Repr

/-- The meter in its freshly constructed state (all fields zero). -/
def AverageMeter.init : AverageMeter := ⟨0, 0, 0, 0⟩

/-- Modelled from the spec: `AverageMeter.update(val, n)`. -/
def AverageMeter.update (m : AverageMeter) (v : ℚ) (n : ℕ) : AverageMeter :=
  let s := m.sum + v * n
  let c := m.count + n
  ⟨v, s, c, s / c⟩

/-- The slice of the configuration object `cfg` that `do_train` reads:
`cfg.LOSS.NUM_STAGES`, `cfg.PRINT_FREQ`, `cfg.RANK` and
`cfg.DATASET.OUTPUT_SIZE`. -/
structure Config where
  NUM_STAGES : ℕ
  PRINT_FREQ : ℕ
  RANK : ℕ
  OUTPUT_SIZE : List ℕ
deriving DecidableEq, Repr

/-- One batch of the training loop, as `do_train` sees it: the batch size
`images.size(0)`, the three per-stage loss lists returned by
`loss_factory(student_outputs, heatmaps, masks, joints)`, the three
per-stage loss lists returned by
`loss_factory(teacher_outputs, heatmaps, masks, joints)` (the teacher
outputs are `teacher(images)`, a function of the teacher and the images
only), and `len(student_outputs)`.  A per-stage entry is `none` when the
corresponding loss is `None`, otherwise the loss tensor along dim 0. -/
structure Batch where
  batchSize : ℕ
  studentHeatmapsLosses : List (Option (List ℚ))
  studentPushLosses : List (Option (List ℚ))
  studentPullLosses : List (Option (List ℚ))
  teacherHeatmapsLosses : List (Option (List ℚ))
  teacherPushLosses : List (Option (List ℚ))
  teacherPullLosses : List (Option (List ℚ))
  numStudentOutputs : ℕ
deriving DecidableEq, Repr

/-- `t.mean(dim=0)` of a loss tensor, as a rational. -/
def meanDim0 (t : List ℚ) : ℚ := t.sum / t.length

/-- Update the meter at position `idx` of a meter list with value `v` and
weight `n` (the Python `meter_list[idx].update(v, n)`). -/
def updateMeterAt (ms : List AverageMeter) (idx : ℕ) (v : ℚ) (n : ℕ) :
    List AverageMeter :=
  ms.set idx ((ms.getD idx AverageMeter.init).update v n)

/-- The accumulator of the student stage loop (lines 58-77): the running
`student_loss` together with the three meter lists it updates. -/
structure StudentAcc where
  loss : ℚ
  hmMeters : List AverageMeter
  pushMeters : List AverageMeter
  pullMeters : List AverageMeter
deriving DecidableEq, Repr

/-- One iteration of the student stage loop (lines 59-77): when
`student_heatmaps_losses[idx]` is not `None` its mean is added to
`student_loss` and recorded in `heatmaps_loss_meter[idx]` with weight
`images.size(0)`; only then are the push and pull losses of the same
stage examined, each added and recorded when not `None`. -/
def studentStageStep (b : Batch) (acc : StudentAcc) (idx : ℕ) : StudentAcc :=
  match b.studentHeatmapsLosses.getD idx none with
  | none => acc
  | some hm =>
    let heatmapsLoss := meanDim0 hm
    let acc1 : StudentAcc :=
      { acc with
        hmMeters := updateMeterAt acc.hmMeters idx heatmapsLoss b.batchSize
        loss := acc.loss + heatmapsLoss }
    let acc2 : StudentAcc :=
      match b.studentPushLosses.getD idx none with
      | none => acc1
      | some p =>
        let pushLoss := meanDim0 p
        { acc1 with
          pushMeters := updateMeterAt acc1.pushMeters idx pushLoss b.batchSize
          loss := acc1.loss + pushLoss }
    match b.studentPullLosses.getD idx none with
    | none => acc2
    | some p =>
      let pullLoss := meanDim0 p
      { acc2 with
        pullMeters := updateMeterAt acc2.pullMeters idx pullLoss b.batchSize
        loss := acc2.loss + pullLoss }

/-- One iteration of the teacher stage loop (lines 80-89): the same
accumulation as the student loop but into `teacher_loss` only; no meter
is touched. -/
def teacherStageStep (b : Batch) (t : ℚ) (idx : ℕ) : ℚ :=
  match b.teacherHeatmapsLosses.getD idx none with
  | none => t
  | some hm =>
    let t1 := t + meanDim0 hm
    let t2 :=
      match b.teacherPushLosses.getD idx none with
      | none => t1
      | some p => t1 + meanDim0 p
    match b.teacherPullLosses.getD idx none with
    | none => t2
    | some p => t2 + meanDim0 p

/-- The contribution of stage `idx` to `student_loss`: zero when the
heatmaps loss is `None`, otherwise the meaned heatmaps loss plus the
meaned push and pull losses of the stage when they are not `None`. -/
def studentStageContrib (b : Batch) (idx : ℕ) : ℚ :=
  match b.studentHeatmapsLosses.getD idx none with
  | none => 0
  | some hm =>
    meanDim0 hm
      + (match b.studentPushLosses.getD idx none with
         | none => 0
         | some p => meanDim0 p)
      + (match b.studentPullLosses.getD idx none with
         | none => 0
         | some p => meanDim0 p)

/-- The contribution of stage `idx` to `teacher_loss`, gated the same
way on the teacher's heatmaps loss. -/
def teacherStageContrib (b : Batch) (idx : ℕ) : ℚ :=
  match b.teacherHeatmapsLosses.getD idx none with
  | none => 0
  | some hm =>
    meanDim0 hm
      + (match b.teacherPushLosses.getD idx none with
         | none => 0
         | some p => meanDim0 p)
      + (match b.teacherPullLosses.getD idx none with
         | none => 0
         | some p => meanDim0 p)

/-- `alpha` of line 91. -/
def alpha : ℚ := 1/2

/-- The value of `student_loss` after the loop of lines 58-77 (the meters
are started from fresh ones; the loss component does not depend on them). -/
def studentLossVal (cfg : Config) (b : Batch) : ℚ :=
  ((List.range cfg.NUM_STAGES).foldl (studentStageStep b)
    ⟨0, List.replicate cfg.NUM_STAGES AverageMeter.init,
        List.replicate cfg.NUM_STAGES AverageMeter.init,
        List.replicate cfg.NUM_STAGES AverageMeter.init⟩).loss

/-- The value of `teacher_loss` after the loop of lines 79-89. -/
def teacherLossVal (cfg : Config) (b : Batch) : ℚ :=
  (List.range cfg.NUM_STAGES).foldl (teacherStageStep b) 0

/-- The blended loss of line 92:
`loss = student_loss * alpha + (1-alpha) * teacher_loss`. -/
def blendedLoss (cfg : Config) (b : Batch) : ℚ :=
  studentLossVal cfg b * alpha + (1 - alpha) * teacherLossVal cfg b

theorem studentStageStep_loss (b : Batch) (acc : StudentAcc) (idx : ℕ) :
    (studentStageStep b acc idx).loss = acc.loss + studentStageContrib b idx := by
  unfold studentStageStep studentStageContrib
  cases b.studentHeatmapsLosses.getD idx none with
  | none => simp
  | some hm =>
    cases b.studentPushLosses.getD idx none with
    | none =>
      cases b.studentPullLosses.getD idx none with
      | none => simp
      | some pl => simp; ring
    | some p =>
      cases b.studentPullLosses.getD idx none with
      | none => simp; ring
      | some pl => simp; ring

theorem teacherStageStep_eq (b : Batch) (t : ℚ) (idx : ℕ) :
    teacherStageStep b t idx = t + teacherStageContrib b idx := by
  unfold teacherStageStep teacherStageContrib
  cases b.teacherHeatmapsLosses.getD idx none with
  | none => simp
  | some hm =>
    cases b.teacherPushLosses.getD idx none with
    | none =>
      cases b.teacherPullLosses.getD idx none with
      | none => simp
      | some pl => simp; ring
    | some p =>
      cases b.teacherPullLosses.getD idx none with
      | none => simp; ring
      | some pl => simp; ring

theorem studentFold_loss (b : Batch) (l : List ℕ) (acc : StudentAcc) :
    (l.foldl (studentStageStep b) acc).loss
      = acc.loss + (l.map (studentStageContrib b)).sum := by
  induction l generalizing acc with
  | nil => simp
  | cons x xs ih =>
    simp only [List.foldl_cons, List.map_cons, List.sum_cons]
    rw [ih, studentStageStep_loss]
    ring

theorem teacherFold_eq (b : Batch) (l : List ℕ) (t : ℚ) :
    l.foldl (teacherStageStep b) t
      = t + (l.map (teacherStageContrib b)).sum := by
  induction l generalizing t with
  | nil => simp
  | cons x xs ih =>
    simp only [List.foldl_cons, List.map_cons, List.sum_cons]
    rw [ih, teacherStageStep_eq]
    ring

theorem studentLossVal_eq (cfg : Config) (b : Batch) :
    studentLossVal cfg b
      = ((List.range cfg.NUM_STAGES).map (studentStageContrib b)).sum := by
  unfold studentLossVal
  rw [studentFold_loss]
  simp

theorem teacherLossVal_eq (cfg : Config) (b : Batch) :
    teacherLossVal cfg b
      = ((List.range cfg.NUM_STAGES).map (teacherStageContrib b)).sum := by
  unfold teacherLossVal
  rw [teacherFold_eq]
  simp

/-- The mutable state `do_train` threads through its loop: the three
per-stage meter lists (lines 27-29), the TensorBoard scalar writes so far
(each a tag, a value and the global step it was written at), the
`writer_dict['train_global_steps']` counter, the number of
`logger.info` messages emitted, and the debug-image path bases passed to
`save_debug_images`. -/
structure TrainState where
  heatmapsLossMeter : List AverageMeter
  pushLossMeter : List AverageMeter
  pullLossMeter : List AverageMeter
  scalars : List (String × ℚ × ℕ)
  trainGlobalSteps : ℕ
  logCount : ℕ
  debugImageSaves : List String
deriving DecidableEq, Repr

/-- The three `writer.add_scalar` calls of one iteration of the loop at
lines 123-138, for stage `idx` at batch index `i` and global step `gs`:
the heatmaps tag is formatted from the batch index `i`
(`'train_stage{}_heatmaps_loss'.format(i)`, line 125), the push and pull
tags from the stage index `idx`. -/
def stageScalars (i gs idx : ℕ)
    (hmM pushM pullM : List AverageMeter) : List (String × ℚ × ℕ) :=
  [ ("train_stage" ++ toString i ++ "_heatmaps_loss",
      (hmM.getD idx AverageMeter.init).val, gs),
    ("train_stage" ++ toString idx ++ "_push_loss",
      (pushM.getD idx AverageMeter.init).val, gs),
    ("train_stage" ++ toString idx ++ "_pull_loss",
      (pullM.getD idx AverageMeter.init).val, gs) ]

/-- All scalar writes of one logging event: the loop
`for idx in range(cfg.LOSS.NUM_STAGES)` emitting the three scalars per
stage. -/
def scalarEvents (cfg : Config) (i gs : ℕ)
    (hmM pushM pullM : List AverageMeter) : List (String × ℚ × ℕ) :=
  ((List.range cfg.NUM_STAGES).map (fun idx =>
    stageScalars i gs idx hmM pushM pullM)).flatten

/-- The debug-image path bases of one logging event (lines 141-149): for
each student output scale, `os.path.join(output_dir, 'train')` plus the
batch index plus `'_output_'` plus `cfg.DATASET.OUTPUT_SIZE[scale_idx]`. -/
def debugImageBases (cfg : Config) (outputDir : String) (i : ℕ)
    (numOutputs : ℕ) : List String :=
  (List.range numOutputs).map (fun scaleIdx =>
    outputDir ++ "/train_" ++ toString i ++ "_output_"
      ++ toString (cfg.OUTPUT_SIZE.getD scaleIdx 0))

/-- The logging block of lines 105-149: when
`i % cfg.PRINT_FREQ == 0 and cfg.RANK == 0`, one `logger.info` message is
emitted, the per-stage scalars are written at the current global step,
`writer_dict['train_global_steps']` is bumped by one, and the debug
images are saved for each student output scale; otherwise nothing
happens. -/
def logBlock (cfg : Config) (outputDir : String) (i : ℕ) (b : Batch)
    (st : TrainState) : TrainState :=
  if i % cfg.PRINT_FREQ = 0 ∧ cfg.RANK = 0 then
    let gs := st.trainGlobalSteps
    { st with
      logCount := st.logCount + 1
      scalars := st.scalars
        ++ scalarEvents cfg i gs st.heatmapsLossMeter st.pushLossMeter
             st.pullLossMeter
      trainGlobalSteps := gs + 1
      debugImageSaves := st.debugImageSaves
        ++ debugImageBases cfg outputDir i b.numStudentOutputs }
  else st

/-- One iteration of the batch loop of `do_train` (lines 35-149), given
the batch index `i` and the current state: runs the student stage loop
(updating the meters and accumulating `student_loss`), the teacher stage
loop (accumulating `teacher_loss` only), forms the blended loss of line
92, and runs the logging block.  Returns the new state together with the
loss value handed to `backward`. -/
def processBatch (cfg : Config) (outputDir : String) (i : ℕ) (b : Batch)
    (st : TrainState) : TrainState × ℚ :=
  let acc := (List.range cfg.NUM_STAGES).foldl (studentStageStep b)
    ⟨0, st.heatmapsLossMeter, st.pushLossMeter, st.pullLossMeter⟩
  let student_loss := acc.loss
  let teacher_loss := (List.range cfg.NUM_STAGES).foldl (teacherStageStep b) 0
  let loss := student_loss * alpha + (1 - alpha) * teacher_loss
  let st1 : TrainState :=
    { st with
      heatmapsLossMeter := acc.hmMeters
      pushLossMeter := acc.pushMeters
      pullLossMeter := acc.pullMeters }
  (logBlock cfg outputDir i b st1, loss)

/-- The fresh state `do_train` builds before its loop (lines 24-29), with
the externally supplied `writer_dict['train_global_steps']`. -/
def initState (cfg : Config) (gs : ℕ) : TrainState :=
  ⟨List.replicate cfg.NUM_STAGES AverageMeter.init,
   List.replicate cfg.NUM_STAGES AverageMeter.init,
   List.replicate cfg.NUM_STAGES AverageMeter.init,
   [], gs, 0, []⟩

/-- The whole of `do_train` on the numeric side: the loop
`for i, (...) in enumerate(data_loader)` over every batch the loader
yields, threading the state. -/
def do_train (cfg : Config) (outputDir : String) (gs : ℕ)
    (batches : List Batch) : TrainState :=
  (batches.enum.foldl (fun st ib =>
    (processBatch cfg outputDir ib.1 ib.2 st).1) (initState cfg gs))

/-- Who a framework call is made on. -/
inductive Caller where
  | student
  | teacher
deriving DecidableEq, Repr

/-- The framework calls one pass of the trainer performs, in order.
`forward c g` is a forward pass of the model `c`; `g` is `true` exactly
when the call happens inside a `torch.no_grad()` (or equivalent
grad-disabling) context, in which the runtime would skip autograd
bookkeeping for it — `do_train` contains no such context, so every
forward it emits carries `false`.  `backwardStep viaOpt` is the single
backpropagation of the blended loss (`optimizer.backward(loss)` when
`fp16`, `loss.backward()` otherwise).  `trainMode`/`evalMode` are
`.train()`/`.eval()` calls; `paramWrite c` would be a direct in-place
write of the parameters of `c`, which the source never performs. -/
inductive Op where
  | trainMode (c : Caller)
  | evalMode (c : Caller)
  | forward (c : Caller) (underNoGrad : Bool)
  | lossFactoryEval (c : Caller)
  | zeroGrad
  | backwardStep (viaOpt : Bool)
  | stepOp
  | paramWrite (c : Caller)
deriving DecidableEq, Repr

/-- Recognise the backpropagation call, through either branch of the
`fp16` conditional. -/
def Op.isBackward : Op → Bool
  | .backwardStep _ => true
  | _ => false

/-- The framework calls of one iteration of the batch loop (lines
37-99): student forward, teacher forward, the two `loss_factory`
evaluations, `optimizer.zero_grad()`, one backpropagation, and
`optimizer.step()`. -/
def batchTrace (fp16 : Bool) : List Op :=
  [ Op.forward Caller.student false,
    Op.forward Caller.teacher false,
    Op.lossFactoryEval Caller.student,
    Op.lossFactoryEval Caller.teacher,
    Op.zeroGrad,
    Op.backwardStep fp16,
    Op.stepOp ]

/-- The framework calls of a whole `do_train` run over `n` batches:
`model.train()` on the student (line 32) followed by the batch trace for
every batch the loader yields. -/
def doTrainTrace (n : ℕ) (fp16 : Bool) : List Op :=
  Op.trainMode Caller.student
    :: ((List.range n).map (fun _ => batchTrace fp16)).flatten

theorem doTrainTrace_succ (n : ℕ) (fp16 : Bool) :
    doTrainTrace (n + 1) fp16 = doTrainTrace n fp16 ++ batchTrace fp16 := by
  simp [doTrainTrace, List.range_succ]

theorem processBatch_loss (cfg : Config) (outputDir : String) (i : ℕ)
    (b : Batch) (st : TrainState) :
    (processBatch cfg outputDir i b st).2
      = studentLossVal cfg b * alpha + (1 - alpha) * teacherLossVal cfg b := by
  have h : (processBatch cfg outputDir i b st).2
      = ((List.range cfg.NUM_STAGES).foldl (studentStageStep b)
          ⟨0, st.heatmapsLossMeter, st.pushLossMeter, st.pullLossMeter⟩).loss
          * alpha + (1 - alpha) * teacherLossVal cfg b := rfl
  rw [h, studentFold_loss, studentLossVal_eq]
  norm_num

/-- Claim C1.  The claim asserts that the teacher term of the blended loss
is a function of the student (couples the student's outputs to the
teacher's), so that it influences the student's gradient.  The code does
the opposite: the teacher term is `loss_factory(teacher_outputs,
heatmaps, masks, joints)`, the teacher's own loss against the ground
truth, which never mentions the student.  This theorem exhibits that
structure: across two iterations that agree on the teacher's loss-factory
outputs but differ arbitrarily in everything the student contributes
(its per-stage losses, the batch size, the number of output scales, the
meter state), the backpropagated losses differ by exactly
`alpha * (difference of the student losses)` — the teacher term cancels,
i.e. it is constant with respect to the student and contributes nothing
to the student's gradient. -/
theorem C1_teacher_term_constant_wrt_student
    (cfg : Config) (outputDir : String) (i i' : ℕ) (st st' : TrainState)
    (bs bs' nout nout' : ℕ)
    (shm sp spl shm' sp' spl' thm tp tpl : List (Option (List ℚ))) :
    (processBatch cfg outputDir i ⟨bs, shm, sp, spl, thm, tp, tpl, nout⟩ st).2
        - (processBatch cfg outputDir i'
            ⟨bs', shm', sp', spl', thm, tp, tpl, nout'⟩ st').2
      = alpha * (studentLossVal cfg ⟨bs, shm, sp, spl, thm, tp, tpl, nout⟩
          - studentLossVal cfg ⟨bs', shm', sp', spl', thm, tp, tpl, nout'⟩) := by
  have ht : teacherLossVal cfg ⟨bs, shm, sp, spl, thm, tp, tpl, nout⟩
      = teacherLossVal cfg ⟨bs', shm', sp', spl', thm, tp, tpl, nout'⟩ := rfl
  rw [processBatch_loss, processBatch_loss, ht]
  ring

/-- The mean of an optional loss tensor, zero when absent; used only to
phrase the claim's reading of the per-batch losses. -/
def optMean : Option (List ℚ) → ℚ
  | none => 0
  | some t => meanDim0 t

/-- Claim C3's reading of `student_loss`: the sum over stages
`0..NUM_STAGES-1` of the non-`None` per-stage heatmaps, push and pull
losses, each averaged over dim 0 — with no gating of the push and pull
losses on the heatmaps loss of the same stage.  This definition follows
the claim's words, for comparison with the code-derived
`studentLossVal`. -/
def claimStudentLoss (cfg : Config) (b : Batch) : ℚ :=
  ((List.range cfg.NUM_STAGES).map (fun idx =>
    optMean (b.studentHeatmapsLosses.getD idx none)
      + optMean (b.studentPushLosses.getD idx none)
      + optMean (b.studentPullLosses.getD idx none))).sum

/-- Claim C3's reading of `teacher_loss`, analogous to
`claimStudentLoss`. -/
def claimTeacherLoss (cfg : Config) (b : Batch) : ℚ :=
  ((List.range cfg.NUM_STAGES).map (fun idx =>
    optMean (b.teacherHeatmapsLosses.getD idx none)
      + optMean (b.teacherPushLosses.getD idx none)
      + optMean (b.teacherPullLosses.getD idx none))).sum

/-- A one-stage configuration for the C3 counterexample. -/
def cfgC3 : Config := ⟨1, 1, 1, []⟩

/-- A batch whose stage 0 has a `None` student heatmaps loss but a
non-`None` student push loss (of mean 2); every teacher loss is
`None`. -/
def bC3 : Batch := ⟨1, [none], [some [2, 2]], [none], [none], [none], [none], 0⟩

/-- Claim C3, counterexample.  The claim describes `student_loss` as the
sum of the non-`None` per-stage heatmaps, push and pull losses; on a
stage whose heatmaps loss is `None` but whose push loss is not, the code
skips the push loss (it is examined only inside the
`if student_heatmaps_losses[idx] is not None` branch), so the
backpropagated loss (0 here) differs from the claim's formula
(0.5 * 2 = 1 here). -/
theorem C3_counterexample :
    (processBatch cfgC3 "out" 0 bC3 (initState cfgC3 0)).2
      ≠ claimStudentLoss cfgC3 bC3 * (1/2)
          + (1/2) * claimTeacherLoss cfgC3 bC3 := by
  have h1 : (processBatch cfgC3 "out" 0 bC3 (initState cfgC3 0)).2 = 0 := by
    rw [processBatch_loss, studentLossVal_eq, teacherLossVal_eq]
    simp [cfgC3, bC3, studentStageContrib, teacherStageContrib, List.range_succ]
  have h2 : claimStudentLoss cfgC3 bC3 = 2 := by
    simp [claimStudentLoss, cfgC3, bC3, optMean, meanDim0, List.range_succ]
  have h3 : claimTeacherLoss cfgC3 bC3 = 0 := by
    simp [claimTeacherLoss, cfgC3, bC3, optMean, List.range_succ]
  rw [h1, h2, h3]
  norm_num

/-- Claim C3, amended.  For every batch, the backpropagated loss equals
`student_loss * 0.5 + 0.5 * teacher_loss` where `student_loss`
(resp. `teacher_loss`) sums, over stages `0..NUM_STAGES-1`, the
per-stage heatmaps loss averaged over dim 0 when it is not `None`,
plus the push and pull losses of the same stage (each averaged over
dim 0) when they are not `None` *and* that stage's heatmaps loss is not
`None`; and within a batch the backpropagation happens exactly once,
after `optimizer.zero_grad()` and before `optimizer.step()`. -/
theorem C3_blended_loss_backprop (cfg : Config) (outputDir : String)
    (i : ℕ) (b : Batch) (st : TrainState) (fp16 : Bool) :
    (processBatch cfg outputDir i b st).2
        = studentLossVal cfg b * alpha + (1 - alpha) * teacherLossVal cfg b
      ∧ alpha = 1/2
      ∧ studentLossVal cfg b
          = ((List.range cfg.NUM_STAGES).map (studentStageContrib b)).sum
      ∧ teacherLossVal cfg b
          = ((List.range cfg.NUM_STAGES).map (teacherStageContrib b)).sum
      ∧ (batchTrace fp16).countP Op.isBackward = 1
      ∧ (batchTrace fp16).get? 4 = some Op.zeroGrad
      ∧ (batchTrace fp16).get? 5 = some (Op.backwardStep fp16)
      ∧ (batchTrace fp16).get? 6 = some Op.stepOp := by
  refine ⟨processBatch_loss cfg outputDir i b st, rfl,
    studentLossVal_eq cfg b, teacherLossVal_eq cfg b, ?_, ?_, ?_, ?_⟩ <;>
    cases fp16 <;> decide

/-- Claim C4, counterexample.  On a loader yielding two batches, one call
to `do_train` performs two backpropagations and two optimizer steps, not
one: it iterates over every batch. -/
theorem C4_counterexample :
    (doTrainTrace 2 false).countP Op.isBackward = 2
      ∧ (doTrainTrace 2 false).count Op.stepOp = 2
      ∧ ¬ (doTrainTrace 2 false).countP Op.isBackward = 1 := by
  decide

theorem batchTrace_counts (fp16 : Bool) :
    (batchTrace fp16).countP Op.isBackward = 1
    ∧ (batchTrace fp16).count Op.stepOp = 1
    ∧ (batchTrace fp16).count Op.zeroGrad = 1
    ∧ (batchTrace fp16).count (Op.forward Caller.student false) = 1
    ∧ (batchTrace fp16).count (Op.forward Caller.teacher false) = 1 := by
  cases fp16 <;> decide

/-- Claim C4, amended.  One call to `do_train` iterates over every batch
yielded by `data_loader`: on a loader yielding `n` batches it performs
`n` student forward passes, `n` teacher forward passes, `n`
backpropagations, `n` `zero_grad`s and `n` optimizer steps — one
forward/backward/step per batch, not a single one per call. -/
theorem C4_one_pass_per_batch (n : ℕ) (fp16 : Bool) :
    (doTrainTrace n fp16).countP Op.isBackward = n
    ∧ (doTrainTrace n fp16).count Op.stepOp = n
    ∧ (doTrainTrace n fp16).count Op.zeroGrad = n
    ∧ (doTrainTrace n fp16).count (Op.forward Caller.student false) = n
    ∧ (doTrainTrace n fp16).count (Op.forward Caller.teacher false) = n := by
  induction n with
  | zero => cases fp16 <;> decide
  | succ m ih =>
    obtain ⟨i1, i2, i3, i4, i5⟩ := ih
    obtain ⟨b1, b2, b3, b4, b5⟩ := batchTrace_counts fp16
    rw [doTrainTrace_succ]
    refine ⟨?_, ?_, ?_, ?_, ?_⟩ <;>
      simp [List.countP_append, List.count_append,
        i1, i2, i3, i4, i5, b1, b2, b3, b4, b5]

theorem mem_doTrainTrace (o : Op) (n : ℕ) (fp16 : Bool) :
    o ∈ doTrainTrace n fp16
      ↔ o = Op.trainMode Caller.student ∨ (0 < n ∧ o ∈ batchTrace fp16) := by
  induction n with
  | zero => simp [doTrainTrace]
  | succ m ih =>
    rw [doTrainTrace_succ, List.mem_append, ih]
    constructor
    · rintro ((h | ⟨-, h⟩) | h)
      · exact Or.inl h
      · exact Or.inr ⟨Nat.succ_pos m, h⟩
      · exact Or.inr ⟨Nat.succ_pos m, h⟩
    · rintro (h | ⟨-, h⟩)
      · exact Or.inl (Or.inl h)
      · exact Or.inr h

/-- Claim C2, counterexample.  The claim says no gradient bookkeeping is
performed for the teacher's forward pass.  Line 42 calls
`teacher(images)` outside any `torch.no_grad()` (or other
grad-disabling) context — the file contains none — so the runtime's
default gradient bookkeeping applies to that forward pass: the batch
trace contains the teacher forward *not* under a no-grad context, and
contains no no-grad-wrapped teacher forward. -/
theorem C2_counterexample :
    Op.forward Caller.teacher false ∈ batchTrace false
      ∧ Op.forward Caller.teacher true ∉ batchTrace false
      ∧ Op.forward Caller.teacher true ∉ batchTrace true := by
  decide

/-- Claim C2, amended.  In every `do_train` run the teacher is never
switched to train mode (nor to eval mode — its mode is simply left as
supplied), no operation of the trace writes the teacher's parameters
directly, and the teacher is used only through its forward pass; but
that forward pass is executed outside any grad-disabling context, so the
iteration itself does not suppress gradient bookkeeping for it. -/
theorem C2_teacher_mode_and_calls (n : ℕ) (fp16 : Bool) :
    Op.trainMode Caller.teacher ∉ doTrainTrace n fp16
    ∧ Op.evalMode Caller.teacher ∉ doTrainTrace n fp16
    ∧ Op.paramWrite Caller.teacher ∉ doTrainTrace n fp16
    ∧ Op.paramWrite Caller.student ∉ doTrainTrace n fp16
    ∧ (0 < n → Op.forward Caller.teacher false ∈ doTrainTrace n fp16
        ∧ Op.forward Caller.teacher true ∉ doTrainTrace n fp16) := by
  refine ⟨?_, ?_, ?_, ?_, fun hn => ⟨?_, ?_⟩⟩
  · rw [mem_doTrainTrace]
    rintro (h | ⟨-, h⟩)
    · exact absurd h (by decide)
    · revert h; cases fp16 <;> decide
  · rw [mem_doTrainTrace]
    rintro (h | ⟨-, h⟩)
    · exact absurd h (by decide)
    · revert h; cases fp16 <;> decide
  · rw [mem_doTrainTrace]
    rintro (h | ⟨-, h⟩)
    · exact absurd h (by decide)
    · revert h; cases fp16 <;> decide
  · rw [mem_doTrainTrace]
    rintro (h | ⟨-, h⟩)
    · exact absurd h (by decide)
    · revert h; cases fp16 <;> decide
  · rw [mem_doTrainTrace]
    exact Or.inr ⟨hn, by cases fp16 <;> decide⟩
  · rw [mem_doTrainTrace]
    rintro (h | ⟨-, h⟩)
    · exact absurd h (by decide)
    · revert h; cases fp16 <;> decide

/-- Witness for `C2_teacher_mode_and_calls` at `n = 1`, `fp16 = false`,
with the `0 < 1` hypothesis of its last conjunct discharged. -/
theorem C2_teacher_mode_and_calls_witness :
    Op.trainMode Caller.teacher ∉ doTrainTrace 1 false
    ∧ Op.forward Caller.teacher false ∈ doTrainTrace 1 false :=
  ⟨(C2_teacher_mode_and_calls 1 false).1,
   ((C2_teacher_mode_and_calls 1 false).2.2.2.2 (by decide)).1⟩

theorem sum_map_three (n : ℕ) : ((List.range n).map (fun _ => 3)).sum = 3 * n := by
  induction n with
  | zero => simp
  | succ m ih =>
    rw [List.range_succ]
    simp [ih]
    omega

theorem scalarEvents_length (cfg : Config) (i gs : ℕ)
    (hmM pushM pullM : List AverageMeter) :
    (scalarEvents cfg i gs hmM pushM pullM).length = 3 * cfg.NUM_STAGES := by
  simp only [scalarEvents, List.length_flatten, List.map_map]
  have h : (List.length ∘ fun idx => stageScalars i gs idx hmM pushM pullM)
      = fun _ => 3 := by
    funext idx
    rfl
  rw [h, sum_map_three]

theorem debugImageBases_length (cfg : Config) (outputDir : String)
    (i numOutputs : ℕ) :
    (debugImageBases cfg outputDir i numOutputs).length = numOutputs := by
  simp [debugImageBases]


/-- The state right after the student stage loop of one batch: the three
meter lists replaced by those the loop produced; everything else as
before. -/
def postStudentState (cfg : Config) (b : Batch) (st : TrainState) :
    TrainState :=
  let acc := (List.range cfg.NUM_STAGES).foldl (studentStageStep b)
    ⟨0, st.heatmapsLossMeter, st.pushLossMeter, st.pullLossMeter⟩
  { st with
    heatmapsLossMeter := acc.hmMeters
    pushLossMeter := acc.pushMeters
    pullLossMeter := acc.pullMeters }

theorem processBatch_fst (cfg : Config) (outputDir : String) (i : ℕ)
    (b : Batch) (st : TrainState) :
    (processBatch cfg outputDir i b st).1
      = logBlock cfg outputDir i b (postStudentState cfg b st) := rfl

theorem logBlock_pos (cfg : Config) (outputDir : String) (i : ℕ) (b : Batch)
    (st : TrainState) (hc : i % cfg.PRINT_FREQ = 0 ∧ cfg.RANK = 0) :
    logBlock cfg outputDir i b st
      = { st with
          logCount := st.logCount + 1
          scalars := st.scalars
            ++ scalarEvents cfg i st.trainGlobalSteps st.heatmapsLossMeter
                st.pushLossMeter st.pullLossMeter
          trainGlobalSteps := st.trainGlobalSteps + 1
          debugImageSaves := st.debugImageSaves
            ++ debugImageBases cfg outputDir i b.numStudentOutputs } := by
  unfold logBlock
  rw [if_pos hc]

theorem logBlock_neg (cfg : Config) (outputDir : String) (i : ℕ) (b : Batch)
    (st : TrainState) (hc : ¬ (i % cfg.PRINT_FREQ = 0 ∧ cfg.RANK = 0)) :
    logBlock cfg outputDir i b st = st := by
  unfold logBlock
  rw [if_neg hc]

/-- Claim C5.  Logging is interleaved with the loop exactly at the batch
indices `i` with `i % cfg.PRINT_FREQ == 0 and cfg.RANK == 0` (the
`PRINT_FREQ > 0` hypothesis reflects that the Python modulo is only
defined then).  At such an index exactly one log message is emitted, the
scalar-write list grows by exactly the per-stage block — three scalars
(heatmaps, push, pull) for each of the `NUM_STAGES` stages, at the
current global step — `train_global_steps` grows by exactly 1, and one
debug-image save happens per student output scale.  At every other
index the log count, the scalar writes, `train_global_steps` and the
debug-image saves are all unchanged. -/
theorem C5_logging (cfg : Config) (outputDir : String) (i : ℕ) (b : Batch)
    (st : TrainState) (hpf : 0 < cfg.PRINT_FREQ) :
    ((i % cfg.PRINT_FREQ = 0 ∧ cfg.RANK = 0) →
      ((processBatch cfg outputDir i b st).1.logCount = st.logCount + 1
        ∧ (processBatch cfg outputDir i b st).1.scalars
            = st.scalars
              ++ scalarEvents cfg i st.trainGlobalSteps
                  (processBatch cfg outputDir i b st).1.heatmapsLossMeter
                  (processBatch cfg outputDir i b st).1.pushLossMeter
                  (processBatch cfg outputDir i b st).1.pullLossMeter
        ∧ (processBatch cfg outputDir i b st).1.scalars.length
            = st.scalars.length + 3 * cfg.NUM_STAGES
        ∧ (processBatch cfg outputDir i b st).1.trainGlobalSteps
            = st.trainGlobalSteps + 1
        ∧ (processBatch cfg outputDir i b st).1.debugImageSaves
            = st.debugImageSaves
              ++ debugImageBases cfg outputDir i b.numStudentOutputs
        ∧ (processBatch cfg outputDir i b st).1.debugImageSaves.length
            = st.debugImageSaves.length + b.numStudentOutputs))
    ∧ (¬ (i % cfg.PRINT_FREQ = 0 ∧ cfg.RANK = 0) →
      ((processBatch cfg outputDir i b st).1.logCount = st.logCount
        ∧ (processBatch cfg outputDir i b st).1.scalars = st.scalars
        ∧ (processBatch cfg outputDir i b st).1.trainGlobalSteps
            = st.trainGlobalSteps
        ∧ (processBatch cfg outputDir i b st).1.debugImageSaves
            = st.debugImageSaves)) := by
  constructor
  · intro hc
    rw [processBatch_fst, logBlock_pos cfg outputDir i b _ hc]
    refine ⟨rfl, rfl, ?_, rfl, rfl, ?_⟩
    · show (st.scalars ++ scalarEvents cfg i st.trainGlobalSteps _ _ _).length = _
      rw [List.length_append, scalarEvents_length]
    · show (st.debugImageSaves ++ debugImageBases cfg outputDir i _).length = _
      rw [List.length_append, debugImageBases_length]
  · intro hc
    rw [processBatch_fst, logBlock_neg cfg outputDir i b _ hc]
    exact ⟨rfl, rfl, rfl, rfl⟩

/-- A two-stage configuration with `PRINT_FREQ = 1` and `RANK = 0`, used
to instantiate hypothesised theorems. -/
def cfgW : Config := ⟨2, 1, 0, [4]⟩

/-- A concrete batch for instantiating hypothesised theorems. -/
def bW : Batch := ⟨2, [some [1, 3], none], [some [2], none], [none, none],
  [none, none], [none, none], [none, none], 1⟩

/-- Witness for `C5_logging`: at batch index 0 under `cfgW` the logging
branch is taken and the log count grows by one. -/
theorem C5_logging_witness :
    (processBatch cfgW "out" 0 bW (initState cfgW 5)).1.logCount
      = (initState cfgW 5).logCount + 1 :=
  ((C5_logging cfgW "out" 0 bW (initState cfgW 5) (by decide)).1 (by decide)).1

/-- Claim C6.  In every logging event at batch index `i`, the scalar for
the heatmaps loss of each stage `idx` is written under the tag
`'train_stage{}_heatmaps_loss'.format(i)` — the batch index, hence the
same tag for every stage of the event — while the push and pull scalars
of stage `idx` are written under tags formatted from the stage index
`idx`. -/
theorem C6_heatmaps_tag_uses_batch_index (cfg : Config) (i gs : ℕ)
    (hmM pushM pullM : List AverageMeter) (idx : ℕ)
    (h : idx < cfg.NUM_STAGES) :
    ("train_stage" ++ toString i ++ "_heatmaps_loss",
        (hmM.getD idx AverageMeter.init).val, gs)
      ∈ scalarEvents cfg i gs hmM pushM pullM
    ∧ ("train_stage" ++ toString idx ++ "_push_loss",
        (pushM.getD idx AverageMeter.init).val, gs)
      ∈ scalarEvents cfg i gs hmM pushM pullM
    ∧ ("train_stage" ++ toString idx ++ "_pull_loss",
        (pullM.getD idx AverageMeter.init).val, gs)
      ∈ scalarEvents cfg i gs hmM pushM pullM
    ∧ (∀ j : ℕ, (stageScalars i gs j hmM pushM pullM).get? 0
        = some ("train_stage" ++ toString i ++ "_heatmaps_loss",
            (hmM.getD j AverageMeter.init).val, gs)) := by
  have hmem : stageScalars i gs idx hmM pushM pullM
      ∈ (List.range cfg.NUM_STAGES).map (fun j =>
          stageScalars i gs j hmM pushM pullM) :=
    List.mem_map_of_mem _ (List.mem_range.2 h)
  refine ⟨?_, ?_, ?_, fun j => rfl⟩ <;>
    exact List.mem_flatten.2
      ⟨stageScalars i gs idx hmM pushM pullM, hmem, by simp [stageScalars]⟩

/-- Witness for `C6_heatmaps_tag_uses_batch_index` at stage 1 of `cfgW`,
batch index 3: the heatmaps scalar of stage 1 carries the batch-indexed
tag. -/
theorem C6_heatmaps_tag_uses_batch_index_witness :
    ("train_stage" ++ toString 3 ++ "_heatmaps_loss",
        ((List.replicate 2 AverageMeter.init).getD 1 AverageMeter.init).val, 7)
      ∈ scalarEvents cfgW 3 7 (List.replicate 2 AverageMeter.init)
          (List.replicate 2 AverageMeter.init)
          (List.replicate 2 AverageMeter.init) :=
  (C6_heatmaps_tag_uses_batch_index cfgW 3 7 (List.replicate 2 AverageMeter.init)
    (List.replicate 2 AverageMeter.init) (List.replicate 2 AverageMeter.init)
    1 (by decide)).1

theorem updateMeterAt_getD_ne (ms : List AverageMeter) (idx : ℕ) (v : ℚ)
    (n j : ℕ) (h : j ≠ idx) :
    (updateMeterAt ms idx v n).getD j AverageMeter.init
      = ms.getD j AverageMeter.init := by
  simp [updateMeterAt, List.getD_eq_getElem?_getD,
    List.getElem?_set_ne (Ne.symm h)]

theorem updateMeterAt_getD_self (ms : List AverageMeter) (idx : ℕ) (v : ℚ)
    (n : ℕ) (h : idx < ms.length) :
    (updateMeterAt ms idx v n).getD idx AverageMeter.init
      = (ms.getD idx AverageMeter.init).update v n := by
  simp [updateMeterAt, List.getD_eq_getElem?_getD,
    List.getElem?_set_eq_of_lt _ h]

theorem updateMeterAt_length (ms : List AverageMeter) (idx : ℕ) (v : ℚ)
    (n : ℕ) : (updateMeterAt ms idx v n).length = ms.length := by
  simp [updateMeterAt]

theorem studentStageStep_hmMeters (b : Batch) (acc : StudentAcc) (idx : ℕ) :
    (studentStageStep b acc idx).hmMeters
      = match b.studentHeatmapsLosses.getD idx none with
        | none => acc.hmMeters
        | some hm => updateMeterAt acc.hmMeters idx (meanDim0 hm) b.batchSize := by
  unfold studentStageStep
  cases b.studentHeatmapsLosses.getD idx none with
  | none => rfl
  | some hm =>
    cases b.studentPushLosses.getD idx none with
    | none => cases b.studentPullLosses.getD idx none <;> rfl
    | some p => cases b.studentPullLosses.getD idx none <;> rfl

theorem studentStageStep_pushMeters (b : Batch) (acc : StudentAcc) (idx : ℕ) :
    (studentStageStep b acc idx).pushMeters
      = match b.studentHeatmapsLosses.getD idx none,
              b.studentPushLosses.getD idx none with
        | some _, some p =>
            updateMeterAt acc.pushMeters idx (meanDim0 p) b.batchSize
        | _, _ => acc.pushMeters := by
  unfold studentStageStep
  cases b.studentHeatmapsLosses.getD idx none with
  | none => rfl
  | some hm =>
    cases b.studentPushLosses.getD idx none with
    | none => cases b.studentPullLosses.getD idx none <;> rfl
    | some p => cases b.studentPullLosses.getD idx none <;> rfl

theorem studentStageStep_pullMeters (b : Batch) (acc : StudentAcc) (idx : ℕ) :
    (studentStageStep b acc idx).pullMeters
      = match b.studentHeatmapsLosses.getD idx none,
              b.studentPullLosses.getD idx none with
        | some _, some p =>
            updateMeterAt acc.pullMeters idx (meanDim0 p) b.batchSize
        | _, _ => acc.pullMeters := by
  unfold studentStageStep
  cases b.studentHeatmapsLosses.getD idx none with
  | none => rfl
  | some hm =>
    cases b.studentPushLosses.getD idx none with
    | none => cases b.studentPullLosses.getD idx none <;> rfl
    | some p => cases b.studentPullLosses.getD idx none <;> rfl

theorem studentStageStep_hmMeters_getD_ne (b : Batch) (acc : StudentAcc)
    (idx j : ℕ) (h : j ≠ idx) :
    (studentStageStep b acc idx).hmMeters.getD j AverageMeter.init
      = acc.hmMeters.getD j AverageMeter.init := by
  rw [studentStageStep_hmMeters]
  cases b.studentHeatmapsLosses.getD idx none with
  | none => rfl
  | some hm => exact updateMeterAt_getD_ne _ _ _ _ _ h

theorem studentStageStep_pushMeters_getD_ne (b : Batch) (acc : StudentAcc)
    (idx j : ℕ) (h : j ≠ idx) :
    (studentStageStep b acc idx).pushMeters.getD j AverageMeter.init
      = acc.pushMeters.getD j AverageMeter.init := by
  rw [studentStageStep_pushMeters]
  cases b.studentHeatmapsLosses.getD idx none with
  | none => rfl
  | some hm =>
    cases b.studentPushLosses.getD idx none with
    | none => rfl
    | some p => exact updateMeterAt_getD_ne _ _ _ _ _ h

theorem studentStageStep_pullMeters_getD_ne (b : Batch) (acc : StudentAcc)
    (idx j : ℕ) (h : j ≠ idx) :
    (studentStageStep b acc idx).pullMeters.getD j AverageMeter.init
      = acc.pullMeters.getD j AverageMeter.init := by
  rw [studentStageStep_pullMeters]
  cases b.studentHeatmapsLosses.getD idx none with
  | none => rfl
  | some hm =>
    cases b.studentPullLosses.getD idx none with
    | none => rfl
    | some p => exact updateMeterAt_getD_ne _ _ _ _ _ h

theorem studentStageStep_meter_lengths (b : Batch) (acc : StudentAcc)
    (idx : ℕ) :
    (studentStageStep b acc idx).hmMeters.length = acc.hmMeters.length
    ∧ (studentStageStep b acc idx).pushMeters.length = acc.pushMeters.length
    ∧ (studentStageStep b acc idx).pullMeters.length
        = acc.pullMeters.length := by
  rw [studentStageStep_hmMeters, studentStageStep_pushMeters,
    studentStageStep_pullMeters]
  refine ⟨?_, ?_, ?_⟩
  · cases b.studentHeatmapsLosses.getD idx none with
    | none => rfl
    | some hm => exact updateMeterAt_length _ _ _ _
  · cases b.studentHeatmapsLosses.getD idx none with
    | none => rfl
    | some hm =>
      cases b.studentPushLosses.getD idx none with
      | none => rfl
      | some p => exact updateMeterAt_length _ _ _ _
  · cases b.studentHeatmapsLosses.getD idx none with
    | none => rfl
    | some hm =>
      cases b.studentPullLosses.getD idx none with
      | none => rfl
      | some p => exact updateMeterAt_length _ _ _ _

theorem studentFold_meter_lengths (b : Batch) (l : List ℕ)
    (acc : StudentAcc) :
    (l.foldl (studentStageStep b) acc).hmMeters.length = acc.hmMeters.length
    ∧ (l.foldl (studentStageStep b) acc).pushMeters.length
        = acc.pushMeters.length
    ∧ (l.foldl (studentStageStep b) acc).pullMeters.length
        = acc.pullMeters.length := by
  induction l generalizing acc with
  | nil => exact ⟨rfl, rfl, rfl⟩
  | cons x xs ih =>
    rw [List.foldl_cons]
    obtain ⟨h1, h2, h3⟩ := ih (studentStageStep b acc x)
    obtain ⟨g1, g2, g3⟩ := studentStageStep_meter_lengths b acc x
    exact ⟨h1.trans g1, h2.trans g2, h3.trans g3⟩

theorem studentFold_hmMeters_getD_not_mem (b : Batch) (l : List ℕ)
    (acc : StudentAcc) (idx : ℕ) (h : idx ∉ l) :
    (l.foldl (studentStageStep b) acc).hmMeters.getD idx AverageMeter.init
      = acc.hmMeters.getD idx AverageMeter.init := by
  induction l generalizing acc with
  | nil => rfl
  | cons x xs ih =>
    rw [List.foldl_cons,
      ih (studentStageStep b acc x) (fun hm => h (List.mem_cons_of_mem x hm)),
      studentStageStep_hmMeters_getD_ne b acc x idx
        (fun he => h (he ▸ List.mem_cons_self x xs))]

theorem studentFold_pushMeters_getD_not_mem (b : Batch) (l : List ℕ)
    (acc : StudentAcc) (idx : ℕ) (h : idx ∉ l) :
    (l.foldl (studentStageStep b) acc).pushMeters.getD idx AverageMeter.init
      = acc.pushMeters.getD idx AverageMeter.init := by
  induction l generalizing acc with
  | nil => rfl
  | cons x xs ih =>
    rw [List.foldl_cons,
      ih (studentStageStep b acc x) (fun hm => h (List.mem_cons_of_mem x hm)),
      studentStageStep_pushMeters_getD_ne b acc x idx
        (fun he => h (he ▸ List.mem_cons_self x xs))]

theorem studentFold_pullMeters_getD_not_mem (b : Batch) (l : List ℕ)
    (acc : StudentAcc) (idx : ℕ) (h : idx ∉ l) :
    (l.foldl (studentStageStep b) acc).pullMeters.getD idx AverageMeter.init
      = acc.pullMeters.getD idx AverageMeter.init := by
  induction l generalizing acc with
  | nil => rfl
  | cons x xs ih =>
    rw [List.foldl_cons,
      ih (studentStageStep b acc x) (fun hm => h (List.mem_cons_of_mem x hm)),
      studentStageStep_pullMeters_getD_ne b acc x idx
        (fun he => h (he ▸ List.mem_cons_self x xs))]

/-- The effect of one batch on `heatmaps_loss_meter[idx]`: one update
with the meaned student heatmaps loss, weighted by `images.size(0)`,
when that loss is not `None`; otherwise no change. -/
def hmMeterSpec (b : Batch) (m : AverageMeter) (idx : ℕ) : AverageMeter :=
  match b.studentHeatmapsLosses.getD idx none with
  | none => m
  | some hm => m.update (meanDim0 hm) b.batchSize

/-- The effect of one batch on `push_loss_meter[idx]`: one update with
the meaned student push loss, weighted by `images.size(0)`, when both
the heatmaps loss and the push loss of the stage are not `None`;
otherwise no change. -/
def pushMeterSpec (b : Batch) (m : AverageMeter) (idx : ℕ) : AverageMeter :=
  match b.studentHeatmapsLosses.getD idx none,
        b.studentPushLosses.getD idx none with
  | some _, some p => m.update (meanDim0 p) b.batchSize
  | _, _ => m

/-- The effect of one batch on `pull_loss_meter[idx]`, analogous to
`pushMeterSpec`. -/
def pullMeterSpec (b : Batch) (m : AverageMeter) (idx : ℕ) : AverageMeter :=
  match b.studentHeatmapsLosses.getD idx none,
        b.studentPullLosses.getD idx none with
  | some _, some p => m.update (meanDim0 p) b.batchSize
  | _, _ => m

theorem studentFold_range_hmMeter (b : Batch) (n idx : ℕ)
    (acc : StudentAcc) (hidx : idx < n)
    (hlen : idx < acc.hmMeters.length) :
    ((List.range n).foldl (studentStageStep b) acc).hmMeters.getD idx
        AverageMeter.init
      = hmMeterSpec b (acc.hmMeters.getD idx AverageMeter.init) idx := by
  induction n with
  | zero => omega
  | succ m ih =>
    rw [List.range_succ, List.foldl_append, List.foldl_cons, List.foldl_nil]
    by_cases hc : idx = m
    · subst hc
      have hnm : idx ∉ List.range idx := by simp
      have hA : ((List.range idx).foldl (studentStageStep b) acc).hmMeters.getD
          idx AverageMeter.init = acc.hmMeters.getD idx AverageMeter.init :=
        studentFold_hmMeters_getD_not_mem b _ acc idx hnm
      have hAlen : idx
          < ((List.range idx).foldl (studentStageStep b) acc).hmMeters.length := by
        rw [(studentFold_meter_lengths b _ acc).1]
        exact hlen
      rw [studentStageStep_hmMeters]
      cases hshm : b.studentHeatmapsLosses.getD idx none with
      | none => simp only [hmMeterSpec, hshm]; exact hA
      | some hm =>
        rw [updateMeterAt_getD_self _ _ _ _ hAlen, hA]
        simp only [hmMeterSpec, hshm]
    · have h1 : idx < m := by omega
      rw [studentStageStep_hmMeters_getD_ne b _ m idx hc]
      exact ih h1

theorem studentFold_range_pushMeter (b : Batch) (n idx : ℕ)
    (acc : StudentAcc) (hidx : idx < n)
    (hlen : idx < acc.pushMeters.length) :
    ((List.range n).foldl (studentStageStep b) acc).pushMeters.getD idx
        AverageMeter.init
      = pushMeterSpec b (acc.pushMeters.getD idx AverageMeter.init) idx := by
  induction n with
  | zero => omega
  | succ m ih =>
    rw [List.range_succ, List.foldl_append, List.foldl_cons, List.foldl_nil]
    by_cases hc : idx = m
    · subst hc
      have hnm : idx ∉ List.range idx := by simp
      have hA : ((List.range idx).foldl (studentStageStep b) acc).pushMeters.getD
          idx AverageMeter.init = acc.pushMeters.getD idx AverageMeter.init :=
        studentFold_pushMeters_getD_not_mem b _ acc idx hnm
      have hAlen : idx
          < ((List.range idx).foldl (studentStageStep b) acc).pushMeters.length := by
        rw [(studentFold_meter_lengths b _ acc).2.1]
        exact hlen
      rw [studentStageStep_pushMeters]
      cases hshm : b.studentHeatmapsLosses.getD idx none with
      | none => simp only [pushMeterSpec, hshm]; exact hA
      | some hm =>
        cases hsp : b.studentPushLosses.getD idx none with
        | none => simp only [pushMeterSpec, hshm, hsp]; exact hA
        | some p =>
          rw [updateMeterAt_getD_self _ _ _ _ hAlen, hA]
          simp only [pushMeterSpec, hshm, hsp]
    · have h1 : idx < m := by omega
      rw [studentStageStep_pushMeters_getD_ne b _ m idx hc]
      exact ih h1

theorem studentFold_range_pullMeter (b : Batch) (n idx : ℕ)
    (acc : StudentAcc) (hidx : idx < n)
    (hlen : idx < acc.pullMeters.length) :
    ((List.range n).foldl (studentStageStep b) acc).pullMeters.getD idx
        AverageMeter.init
      = pullMeterSpec b (acc.pullMeters.getD idx AverageMeter.init) idx := by
  induction n with
  | zero => omega
  | succ m ih =>
    rw [List.range_succ, List.foldl_append, List.foldl_cons, List.foldl_nil]
    by_cases hc : idx = m
    · subst hc
      have hnm : idx ∉ List.range idx := by simp
      have hA : ((List.range idx).foldl (studentStageStep b) acc).pullMeters.getD
          idx AverageMeter.init = acc.pullMeters.getD idx AverageMeter.init :=
        studentFold_pullMeters_getD_not_mem b _ acc idx hnm
      have hAlen : idx
          < ((List.range idx).foldl (studentStageStep b) acc).pullMeters.length := by
        rw [(studentFold_meter_lengths b _ acc).2.2]
        exact hlen
      rw [studentStageStep_pullMeters]
      cases hshm : b.studentHeatmapsLosses.getD idx none with
      | none => simp only [pullMeterSpec, hshm]; exact hA
      | some hm =>
        cases hsp : b.studentPullLosses.getD idx none with
        | none => simp only [pullMeterSpec, hshm, hsp]; exact hA
        | some p =>
          rw [updateMeterAt_getD_self _ _ _ _ hAlen, hA]
          simp only [pullMeterSpec, hshm, hsp]
    · have h1 : idx < m := by omega
      rw [studentStageStep_pullMeters_getD_ne b _ m idx hc]
      exact ih h1

theorem logBlock_meters (cfg : Config) (outputDir : String) (i : ℕ)
    (b : Batch) (st : TrainState) :
    (logBlock cfg outputDir i b st).heatmapsLossMeter = st.heatmapsLossMeter
    ∧ (logBlock cfg outputDir i b st).pushLossMeter = st.pushLossMeter
    ∧ (logBlock cfg outputDir i b st).pullLossMeter = st.pullLossMeter := by
  unfold logBlock
  split <;> exact ⟨rfl, rfl, rfl⟩

/-- Claim C7.  The teacher's losses never reach a meter.  First, the
whole observable state of an iteration (meters, scalar writes, log
count, global steps, debug saves) is unchanged when the teacher's three
loss-factory outputs are replaced by arbitrary others: everything logged
or emitted reflects the student only.  Second, each meter performs, per
batch, exactly the update the student loop prescribes: the stage-`idx`
heatmaps meter is updated with the meaned student heatmaps loss weighted
by `images.size(0)` exactly when that loss is not `None` (and the push
and pull meters likewise, additionally gated on the stage's heatmaps
loss), so the teacher accumulation loop leaves every meter unchanged. -/
theorem C7_meters_reflect_student_only
    (cfg : Config) (outputDir : String) (i : ℕ) (st : TrainState)
    (bs nout : ℕ)
    (shm sp spl thm tp tpl thm' tp' tpl' : List (Option (List ℚ)))
    (hl1 : cfg.NUM_STAGES ≤ st.heatmapsLossMeter.length)
    (hl2 : cfg.NUM_STAGES ≤ st.pushLossMeter.length)
    (hl3 : cfg.NUM_STAGES ≤ st.pullLossMeter.length)
    (idx : ℕ) (hidx : idx < cfg.NUM_STAGES) :
    ((processBatch cfg outputDir i ⟨bs, shm, sp, spl, thm, tp, tpl, nout⟩ st).1
        = (processBatch cfg outputDir i
            ⟨bs, shm, sp, spl, thm', tp', tpl', nout⟩ st).1)
    ∧ (processBatch cfg outputDir i ⟨bs, shm, sp, spl, thm, tp, tpl, nout⟩
          st).1.heatmapsLossMeter.getD idx AverageMeter.init
        = hmMeterSpec ⟨bs, shm, sp, spl, thm, tp, tpl, nout⟩
            (st.heatmapsLossMeter.getD idx AverageMeter.init) idx
    ∧ (processBatch cfg outputDir i ⟨bs, shm, sp, spl, thm, tp, tpl, nout⟩
          st).1.pushLossMeter.getD idx AverageMeter.init
        = pushMeterSpec ⟨bs, shm, sp, spl, thm, tp, tpl, nout⟩
            (st.pushLossMeter.getD idx AverageMeter.init) idx
    ∧ (processBatch cfg outputDir i ⟨bs, shm, sp, spl, thm, tp, tpl, nout⟩
          st).1.pullLossMeter.getD idx AverageMeter.init
        = pullMeterSpec ⟨bs, shm, sp, spl, thm, tp, tpl, nout⟩
            (st.pullLossMeter.getD idx AverageMeter.init) idx := by
  refine ⟨rfl, ?_, ?_, ?_⟩
  · rw [processBatch_fst,
      (logBlock_meters cfg outputDir i _ (postStudentState cfg _ st)).1]
    exact studentFold_range_hmMeter _ cfg.NUM_STAGES idx _ hidx
      (lt_of_lt_of_le hidx hl1)
  · rw [processBatch_fst,
      (logBlock_meters cfg outputDir i _ (postStudentState cfg _ st)).2.1]
    exact studentFold_range_pushMeter _ cfg.NUM_STAGES idx _ hidx
      (lt_of_lt_of_le hidx hl2)
  · rw [processBatch_fst,
      (logBlock_meters cfg outputDir i _ (postStudentState cfg _ st)).2.2]
    exact studentFold_range_pullMeter _ cfg.NUM_STAGES idx _ hidx
      (lt_of_lt_of_le hidx hl3)

/-- Witness for `C7_meters_reflect_student_only`: under `cfgW` and the
batch `bW` the stage-0 heatmaps meter after the iteration is exactly the
one student-loss update. -/
theorem C7_meters_reflect_student_only_witness :
    (processBatch cfgW "out" 0 bW
        (initState cfgW 0)).1.heatmapsLossMeter.getD 0 AverageMeter.init
      = hmMeterSpec bW
          ((initState cfgW 0).heatmapsLossMeter.getD 0 AverageMeter.init) 0 :=
  (C7_meters_reflect_student_only cfgW "out" 0 (initState cfgW 0) 2 1
    [some [1, 3], none] [some [2], none] [none, none]
    [none, none] [none, none] [none, none]
    [none, none] [none, none] [none, none]
    (by decide) (by decide) (by decide) 0 (by decide)).2.1

/-- Claim C8.  When the heatmaps loss of stage `idx` is `None`, the
whole stage is skipped on that side: if the *student's* heatmaps loss is
`None`, the student stage body leaves the accumulator (loss and all
three meters) unchanged and the stage contributes zero to
`student_loss`, even when the push or pull loss of that stage is not
`None` and regardless of the teacher's losses; and independently,
symmetrically, for the teacher's accumulation regardless of the
student's losses. -/
theorem C8_push_pull_gated_on_heatmaps (b : Batch) (idx : ℕ)
    (acc : StudentAcc) (t : ℚ) :
    (b.studentHeatmapsLosses.getD idx none = none →
      studentStageStep b acc idx = acc ∧ studentStageContrib b idx = 0)
    ∧ (b.teacherHeatmapsLosses.getD idx none = none →
      teacherStageStep b t idx = t ∧ teacherStageContrib b idx = 0) := by
  constructor
  · intro hs
    unfold studentStageStep studentStageContrib
    rw [hs]
    exact ⟨rfl, rfl⟩
  · intro ht
    unfold teacherStageStep teacherStageContrib
    rw [ht]
    exact ⟨rfl, rfl⟩

/-- A batch whose stage 0 has a `None` student heatmaps loss but a
non-`None` student push loss, while the teacher's heatmaps loss at the
same stage is non-`None`. -/
def bC8 : Batch := ⟨1, [none], [some [5]], [some [7]], [some [3]],
  [some [2]], [none], 0⟩

/-- A batch whose stage 0 has a `None` teacher heatmaps loss but a
non-`None` teacher push loss, while the student's heatmaps loss at the
same stage is non-`None`. -/
def bC8t : Batch := ⟨1, [some [1]], [none], [none], [none], [some [3]],
  [some [4]], 0⟩

/-- Witness for `C8_push_pull_gated_on_heatmaps`.  On `bC8` the student
half applies although the teacher's stage-0 heatmaps loss is
`some [3]`: the student push loss `some [5]` is skipped entirely.  On
`bC8t` the teacher half applies although the student's stage-0 heatmaps
loss is `some [1]`. -/
theorem C8_push_pull_gated_on_heatmaps_witness :
    bC8.studentPushLosses.getD 0 none = some [5]
    ∧ bC8.teacherHeatmapsLosses.getD 0 none = some [3]
    ∧ (studentStageStep bC8
          ⟨0, [AverageMeter.init], [AverageMeter.init], [AverageMeter.init]⟩ 0
        = ⟨0, [AverageMeter.init], [AverageMeter.init], [AverageMeter.init]⟩
      ∧ studentStageContrib bC8 0 = 0)
    ∧ bC8t.teacherPushLosses.getD 0 none = some [3]
    ∧ bC8t.studentHeatmapsLosses.getD 0 none = some [1]
    ∧ (teacherStageStep bC8t 0 0 = 0 ∧ teacherStageContrib bC8t 0 = 0) :=
  ⟨rfl, rfl,
   (C8_push_pull_gated_on_heatmaps bC8 0
      ⟨0, [AverageMeter.init], [AverageMeter.init], [AverageMeter.init]⟩
      0).1 rfl,
   rfl, rfl,
   (C8_push_pull_gated_on_heatmaps bC8t 0
      ⟨0, [AverageMeter.init], [AverageMeter.init], [AverageMeter.init]⟩
      0).2 rfl⟩
